import Mathlib

/-!
Shallow embedding of the wry-native C API layer (`lib.rs`, `tray.rs`):
the geometry clamp utility, window/tray handle allocation, the pending
window record with its setters, and a step model of the event loop run
by `wry_app_run`.  Machine integers (`i32` monitor coordinates, `usize`
handles) are modelled as `Int` and `Nat`: all quantities involved stay
far from the word-size boundaries, so wrap-around is not modelled.
-/

namespace WryNative

/-- Rust `i32::clamp(lo, hi)` (callers guarantee `lo ≤ hi`). -/
def i32_clamp (x lo hi : Int) : Int :=
  if x < lo then lo else if x > hi then hi else x

/-- `clamp_window_position_to_bounds` (lib.rs): pure clamp returning
`(new_x, new_y)` so that a window of size `(win_w, win_h)` with top-left
`(win_x, win_y)` stays within the rectangle `[left, right] × [top, bottom]`. -/
def clamp_window_position_to_bounds
    (left top right bottom win_x win_y win_w win_h : Int) : Int × Int :=
  let max_x := max (right - win_w) left
  let max_y := max (bottom - win_h) top
  let new_x := i32_clamp win_x left max_x
  let new_y := i32_clamp win_y top max_y
  (new_x, new_y)

/-- The pending window record (`WryWindow` in lib.rs).  Only the fields
that the verified claims read or write are carried; the remaining pending
configuration flags (resizable, fullscreen, webview options, callbacks,
platform extras) are independent of these fields and are omitted.
`window_live` / `webview_live` model whether the `window` / `webview`
`Option` fields hold a live object (both `None` while the record is
pending, both `Some` after a successful `create`). -/
structure WryWindowRec where
  id : Nat
  pending_title : String
  pending_url : Option String
  pending_html : Option String
  pending_size : Nat × Nat
  pending_position : Option (Int × Int)
  pending_owner_window_id : Option Nat
  pending_parent_window_id : Option Nat
  window_live : Bool
  webview_live : Bool
deriving DecidableEq

/-- `WryWindow::new(id)`: the freshly allocated pending record. -/
def WryWindowRec.new (id : Nat) : WryWindowRec :=
  { id := id
    pending_title := ""
    pending_url := none
    pending_html := none
    pending_size := (800, 600)
    pending_position := none
    pending_owner_window_id := none
    pending_parent_window_id := none
    window_live := false
    webview_live := false }

/-- `wry_window_load_url`, record branch: on a live webview the URL is
loaded in place (no record field changes); on a pending record the URL is
stored and any pending HTML is cleared. -/
def wry_window_load_url (w : WryWindowRec) (url : String) : WryWindowRec :=
  if w.webview_live then w
  else { w with pending_url := some url, pending_html := none }

/-- `wry_window_load_html`, record branch: dual of `wry_window_load_url`. -/
def wry_window_load_html (w : WryWindowRec) (html : String) : WryWindowRec :=
  if w.webview_live then w
  else { w with pending_html := some html, pending_url := none }

/-- `wry_window_set_owner_window` on a pending record: `0` clears the
owner; a non-zero owner id is stored and clears any pending parent. -/
def wry_window_set_owner_window (w : WryWindowRec) (owner_window_id : Nat) :
    WryWindowRec :=
  let w := { w with
    pending_owner_window_id := if owner_window_id = 0 then none else some owner_window_id }
  if owner_window_id ≠ 0 then { w with pending_parent_window_id := none } else w

/-- `wry_window_set_parent_window` on a pending record: `0` clears the
parent; a non-zero parent id is stored and clears any pending owner. -/
def wry_window_set_parent_window (w : WryWindowRec) (parent_window_id : Nat) :
    WryWindowRec :=
  let w := { w with
    pending_parent_window_id := if parent_window_id = 0 then none else some parent_window_id }
  if parent_window_id ≠ 0 then { w with pending_owner_window_id := none } else w

/-- `wry_window_center`: on a live window the OS window is repositioned
(no record field changes); on a pending record the code only resets
`pending_position` to `None` ("let tao choose default"). -/
def wry_window_center (w : WryWindowRec) : WryWindowRec :=
  if w.window_live then w
  else { w with pending_position := none }

/-- A call to one of the two owner/parent setters, for reasoning about
arbitrary call sequences. -/
inductive OwnerParentOp where
  | setOwner (owner_window_id : Nat)
  | setParent (parent_window_id : Nat)

/-- Apply one owner/parent setter call. -/
def applyOwnerParentOp (w : WryWindowRec) : OwnerParentOp → WryWindowRec
  | .setOwner n => wry_window_set_owner_window w n
  | .setParent n => wry_window_set_parent_window w n

/-- Apply a sequence of owner/parent setter calls, oldest first. -/
def applyOwnerParentOps (w : WryWindowRec) (ops : List OwnerParentOp) : WryWindowRec :=
  ops.foldl applyOwnerParentOp w

/-- Mutual exclusion of the owner and parent fields: they are never both set. -/
def ownerParentExclusive (w : WryWindowRec) : Prop :=
  w.pending_owner_window_id = none ∨ w.pending_parent_window_id = none

/-- Lookup in an association list keyed by `Nat`, first match wins
(models `HashMap::get`). -/
def alist_lookup (k : Nat) : List (Nat × β) → Option β
  | [] => none
  | (k2, v) :: rest => if k2 = k then some v else alist_lookup k rest

/-- Remove the entry with key `k` (models `HashMap::remove`). -/
def alist_erase (k : Nat) (l : List (Nat × β)) : List (Nat × β) :=
  l.filter (fun p => p.1 != k)

/-- Insert or overwrite the entry with key `k` (models `HashMap::insert`). -/
def alist_insert (k : Nat) (v : β) (l : List (Nat × β)) : List (Nat × β) :=
  (k, v) :: alist_erase k l

/-- The `WryApp` struct (lib.rs).  `has_event_loop` models whether the
`event_loop: Option<EventLoop>` field still holds the driver; the tray map
is carried as its key set, since no claim reads a tray payload.  The
window-created and window-destroyed handler registrations carry no state
relevant to the claims and are omitted. -/
structure WryApp where
  has_event_loop : Bool
  windows : List (Nat × WryWindowRec)
  next_window_id : Nat
  trays : List Nat
  next_tray_id : Nat
  exit_requested_handler : Option (Bool → Int → Bool)
  run_started : Bool
  dynamic_window_queue : List WryWindowRec
  window_creation_error_handler_reg : Bool

/-- `wry_app_new`: fresh application; both handle counters start at `1`. -/
def wry_app_new : WryApp :=
  { has_event_loop := true
    windows := []
    next_window_id := 1
    trays := []
    next_tray_id := 1
    exit_requested_handler := none
    run_started := false
    dynamic_window_queue := []
    window_creation_error_handler_reg := false }

/-- The record built by `wry_window_new_with_owner`: a fresh record whose
owner is set (and parent cleared) when a non-zero owner id is given. -/
def new_window_rec (id owner_window_id : Nat) : WryWindowRec :=
  if owner_window_id ≠ 0 then
    { WryWindowRec.new id with
        pending_owner_window_id := some owner_window_id
        pending_parent_window_id := none }
  else WryWindowRec.new id

/-- `wry_window_new_with_owner` on a non-null application (the C wrapper
returns the sentinel `0` on a null app pointer before reaching this code).
Allocates the next handle, builds the record, and either stores it in the
pre-run window map or appends it to the dynamic queue once the loop has
started. -/
def wry_window_new_with_owner (app : WryApp) (owner_window_id : Nat) :
    WryApp × Nat :=
  let id := app.next_window_id
  let app := { app with next_window_id := id + 1 }
  let win := new_window_rec id owner_window_id
  if app.run_started = false then
    ({ app with windows := alist_insert id win app.windows }, id)
  else
    ({ app with dynamic_window_queue := app.dynamic_window_queue ++ [win] }, id)

/-- `wry_window_new`: `wry_window_new_with_owner` with no owner. -/
def wry_window_new (app : WryApp) : WryApp × Nat :=
  wry_window_new_with_owner app 0

/-- `wry_tray_new` on a non-null application: allocates the next tray
handle and stores the fresh tray. -/
def wry_tray_new (app : WryApp) : WryApp × Nat :=
  let id := app.next_tray_id
  ({ app with next_tray_id := id + 1, trays := id :: app.trays }, id)

/-- A sequence of `wry_window_new_with_owner` calls, one per entry of
`owners`, returning the final state and the handles in call order. -/
def window_creates (app : WryApp) : List Nat → WryApp × List Nat
  | [] => (app, [])
  | o :: rest =>
    let r := wry_window_new_with_owner app o
    let rr := window_creates r.1 rest
    (rr.1, r.2 :: rr.2)

/-- A sequence of `n` `wry_tray_new` calls, returning the final state and
the handles in call order. -/
def tray_creates (app : WryApp) : Nat → WryApp × List Nat
  | 0 => (app, [])
  | n + 1 =>
    let r := wry_tray_new app
    let rr := tray_creates r.1 n
    (rr.1, r.2 :: rr.2)

/-- The state effect of `wry_app_run` on the `WryApp` struct: a no-op when
the event-loop driver was already consumed; otherwise it takes the driver,
drains the pending window and tray maps into the loop closure, takes the
registered handlers, and runs the loop (which stores `run_started`).  The
returned `Bool` records whether the loop actually ran. -/
def wry_app_run (app : WryApp) : WryApp × Bool :=
  if app.has_event_loop = false then (app, false)
  else
    ({ app with
        has_event_loop := false
        windows := []
        trays := []
        exit_requested_handler := none
        window_creation_error_handler_reg := false
        run_started := true }, true)

/-- A pending record whose position was explicitly set, used to exhibit
the behaviour of `wry_window_center` on a not-yet-live window. -/
def centeredCexRec : WryWindowRec :=
  { WryWindowRec.new 1 with pending_position := some (10, 20) }

/-- `ControlFlow` of the tao loop, restricted to the two values the code
assigns: `Wait` (set at the top of every iteration) and `Exit`. -/
inductive ControlFlow where
  | Wait
  | Exit
deriving DecidableEq

/-- Outcome of `WryWindow::create` for one window, decided by the
platform: success yields the tao `WindowId`, failure an error string. -/
inductive CreateOutcome where
  | ok (window_id : Nat)
  | err (msg : String)

/-- One event delivered to the `run_return` closure.  Callback answers
that the C side would return are carried in the event: `close_answer` is
`none` when no close handler is registered (the code then allows the
close) and `some b` when a registered handler returns `b`;
`destroys_window` tells whether a dispatched callback destroyed the
window (`wry_window_close` takes the live window and webview). -/
inductive LoopEvent where
  | init (env : Nat → CreateOutcome)
  | closeRequested (wid : Nat) (close_answer : Option Bool)
  | destroyed (wid : Nat)
  | dispatch (our_id : Nat) (destroys_window : Bool)
  | trayRemove (tray_id : Nat)
  | requestExit (code : Int)
  | createWindow (env : Nat → CreateOutcome)

/-- The closure state of `wry_app_run`: the pending window list drained
from the app, the two live-window maps (`live_windows` keyed by tao
`WindowId` carrying our handle; `id_to_window_id` the reverse direction),
the live trays (key set only), the shared dynamic queue, the control
flow, and the handlers taken from the app.  `create_attempts` logs each
call to `WryWindow::create` as `(our id, resolved owner, resolved
parent)`, and `error_calls` logs each invocation of the
window-creation-error callback. -/
structure LoopState where
  pending_windows : List WryWindowRec
  pending_trays : List Nat
  live_windows : List (Nat × Nat)
  id_to_window_id : List (Nat × Nat)
  live_trays : List Nat
  dynamic_window_queue : List WryWindowRec
  control_flow : ControlFlow
  exit_requested_handler : Option (Bool → Int → Bool)
  window_creation_error_handler_reg : Bool
  create_attempts : List (Nat × Option Nat × Option Nat)
  error_calls : List (Nat × String)

/-- Owner/parent resolution before `create`: follow the referenced handle
through `id_to_window_id` and `live_windows`; the result is the tao window
id handed to the window builder, or `none` when the chain breaks. -/
def resolve_window_rel (st : LoopState) (rid : Option Nat) : Option Nat :=
  rid.bind fun oid =>
    (alist_lookup oid st.id_to_window_id).bind fun tid =>
      (alist_lookup tid st.live_windows).map fun _ => tid

/-- Materialize one window (shared by the `StartCause::Init` and
`UserEvent::CreateWindow` branches, which are textually identical in the
code): resolve owner and parent, attempt `create`, and on success insert
into both maps, on failure invoke the creation-error callback when one is
registered. -/
def materialize_window (env : Nat → CreateOutcome) (st : LoopState)
    (w : WryWindowRec) : LoopState :=
  let owner := resolve_window_rel st w.pending_owner_window_id
  let parent := resolve_window_rel st w.pending_parent_window_id
  let st := { st with create_attempts := st.create_attempts ++ [(w.id, owner, parent)] }
  match env w.id with
  | .ok wid =>
    { st with
        id_to_window_id := alist_insert w.id wid st.id_to_window_id
        live_windows := alist_insert wid w.id st.live_windows }
  | .err msg =>
    if st.window_creation_error_handler_reg then
      { st with error_calls := st.error_calls ++ [(w.id, msg)] }
    else st

/-- Consult the exit-requested handler (`true` = allow exit when none is
registered). -/
def wry_exit_allows (st : LoopState) (has_code : Bool) (code : Int) : Bool :=
  match st.exit_requested_handler with
  | some f => f has_code code
  | none => true

/-- The exit check run after a window removal: when no live window
remains, consult the exit-requested handler and, if it allows, clear all
live trays and set the control flow to `Exit`. -/
def check_exit_windows_empty (st : LoopState) : LoopState :=
  if st.live_windows.isEmpty then
    if wry_exit_allows st false 0 then
      { st with live_trays := [], control_flow := ControlFlow.Exit }
    else st
  else st

/-- `Vec::pop`: remove and return the LAST element. -/
def vec_pop : List α → Option (α × List α)
  | [] => none
  | x :: xs =>
    match vec_pop xs with
    | none => some (x, [])
    | some (y, rest) => some (y, x :: rest)

/-- The sort key used at loop start (`sort_by_key(|w| w.id)`). -/
def windowIdLe (a b : WryWindowRec) : Prop := a.id ≤ b.id

instance : DecidableRel windowIdLe := fun a b => Nat.decLe a.id b.id

instance : IsTotal WryWindowRec windowIdLe := ⟨fun a b => Nat.le_total a.id b.id⟩

instance : IsTrans WryWindowRec windowIdLe := ⟨fun _ _ _ => Nat.le_trans⟩

/-- Materialization order at loop start: pending windows sorted by id. -/
def sortPendingById (ws : List WryWindowRec) : List WryWindowRec :=
  List.insertionSort windowIdLe ws

/-- One iteration of the `run_return` closure on one event.  The control
flow is reset to `Wait` at the top of every iteration, as in the code. -/
def loopStep (st0 : LoopState) (ev : LoopEvent) : LoopState :=
  let st := { st0 with control_flow := ControlFlow.Wait }
  match ev with
  | .init env =>
    let sorted := sortPendingById st.pending_windows
    let st := { st with pending_windows := [] }
    let st := sorted.foldl (materialize_window env) st
    { st with live_trays := st.live_trays ++ st.pending_trays, pending_trays := [] }
  | .closeRequested wid ans =>
    match alist_lookup wid st.live_windows with
    | none => st
    | some our_id =>
      let allow := ans.getD true
      if allow then
        check_exit_windows_empty
          { st with
              id_to_window_id := alist_erase our_id st.id_to_window_id
              live_windows := alist_erase wid st.live_windows }
      else st
  | .destroyed wid =>
    match alist_lookup wid st.live_windows with
    | none => st
    | some our_id =>
      check_exit_windows_empty
        { st with
            id_to_window_id := alist_erase our_id st.id_to_window_id
            live_windows := alist_erase wid st.live_windows }
  | .dispatch our_id destroys =>
    match alist_lookup our_id st.id_to_window_id with
    | none => st
    | some wid =>
      match alist_lookup wid st.live_windows with
      | none => st
      | some _ =>
        if destroys then
          check_exit_windows_empty
            { st with live_windows := alist_erase wid st.live_windows }
        else st
  | .trayRemove tid =>
    let st := { st with live_trays := st.live_trays.filter (fun t => t != tid) }
    if st.live_windows.isEmpty && st.live_trays.isEmpty then
      { st with control_flow := ControlFlow.Exit }
    else st
  | .requestExit code =>
    if wry_exit_allows st true code then
      { st with live_trays := [], control_flow := ControlFlow.Exit }
    else st
  | .createWindow env =>
    match vec_pop st.dynamic_window_queue with
    | none => st
    | some (w, rest) =>
      materialize_window env { st with dynamic_window_queue := rest } w

/-- The chain a dependent window follows to find its owner or parent:
handle `i` resolves through `id_to_window_id` to tao id `wid`, which is
live. -/
def chain_live (st : LoopState) (i wid : Nat) : Prop :=
  alist_lookup i st.id_to_window_id = some wid ∧
  (alist_lookup wid st.live_windows).isSome = true

/-- A loop state with one live window (tao id 7, handle 1) and one live
tray, no exit handler registered. -/
def oneWindowOneTraySt : LoopState :=
  { pending_windows := []
    pending_trays := []
    live_windows := [(7, 1)]
    id_to_window_id := [(1, 7)]
    live_trays := [4]
    dynamic_window_queue := []
    control_flow := ControlFlow.Wait
    exit_requested_handler := none
    window_creation_error_handler_reg := true
    create_attempts := []
    error_calls := [] }

/-- A loop state at loop start holding one pending window and a
registered window-creation-error handler. -/
def initErrSt : LoopState :=
  { pending_windows := [WryWindowRec.new 1]
    pending_trays := []
    live_windows := []
    id_to_window_id := []
    live_trays := []
    dynamic_window_queue := []
    control_flow := ControlFlow.Wait
    exit_requested_handler := none
    window_creation_error_handler_reg := true
    create_attempts := []
    error_calls := [] }

/-- A loop state at loop start with two pending windows: handle 2 names
handle 1 as its owner. -/
def ownerOrderSt : LoopState :=
  { initErrSt with
      pending_windows :=
        [{ WryWindowRec.new 2 with pending_owner_window_id := some 1 },
         WryWindowRec.new 1] }

/-- A post-start loop state whose dynamic queue holds two queued windows,
handle 2 queued first and handle 3 queued second. -/
def lifoSt : LoopState :=
  { initErrSt with
      pending_windows := []
      dynamic_window_queue := [WryWindowRec.new 2, WryWindowRec.new 3] }

/-- An application whose event loop has started. -/
def startedApp : WryApp :=
  { wry_app_new with run_started := true }

/-- C1: the geometry clamp returns `new_x = clamp(x, left, max(left, right - width))`
and `new_y = clamp(y, top, max(top, bottom - height))`; for bound rectangles with
`left ≤ right` and `top ≤ bottom` it satisfies `left ≤ new_x`, `new_x + width ≤ right`
whenever `width ≤ right - left`, and `new_x = left` whenever `width > right - left`,
and symmetrically for the vertical axis. -/
theorem clamp_window_position_to_bounds_spec
    (left top right bottom win_x win_y win_w win_h : Int)
    (hlr : left ≤ right) (htb : top ≤ bottom) :
    clamp_window_position_to_bounds left top right bottom win_x win_y win_w win_h
      = (i32_clamp win_x left (max left (right - win_w)),
         i32_clamp win_y top (max top (bottom - win_h))) ∧
    left ≤ (clamp_window_position_to_bounds left top right bottom win_x win_y win_w win_h).1 ∧
    (win_w ≤ right - left →
      (clamp_window_position_to_bounds left top right bottom win_x win_y win_w win_h).1 + win_w
        ≤ right) ∧
    (win_w > right - left →
      (clamp_window_position_to_bounds left top right bottom win_x win_y win_w win_h).1 = left) ∧
    top ≤ (clamp_window_position_to_bounds left top right bottom win_x win_y win_w win_h).2 ∧
    (win_h ≤ bottom - top →
      (clamp_window_position_to_bounds left top right bottom win_x win_y win_w win_h).2 + win_h
        ≤ bottom) ∧
    (win_h > bottom - top →
      (clamp_window_position_to_bounds left top right bottom win_x win_y win_w win_h).2 = top) := by
  refine ⟨?_, ?_⟩
  · simp only [clamp_window_position_to_bounds]
    rw [max_comm (right - win_w) left, max_comm (bottom - win_h) top]
  · simp only [clamp_window_position_to_bounds, i32_clamp]
    split_ifs <;> omega

/-- Witness for `clamp_window_position_to_bounds_spec` at a concrete input. -/
theorem clamp_window_position_to_bounds_spec_witness :
    (0 : Int) ≤ 100 ∧ (0 : Int) ≤ 50 ∧
    clamp_window_position_to_bounds 0 0 100 50 70 60 40 30
      = (i32_clamp 70 0 (max 0 (100 - 40)), i32_clamp 60 0 (max 0 (50 - 30))) ∧
    (0 : Int) ≤ (clamp_window_position_to_bounds 0 0 100 50 70 60 40 30).1 ∧
    ((40 : Int) ≤ 100 - 0 →
      (clamp_window_position_to_bounds 0 0 100 50 70 60 40 30).1 + 40 ≤ 100) := by
  have h := clamp_window_position_to_bounds_spec 0 0 100 50 70 60 40 30
    (by decide) (by decide)
  exact ⟨by decide, by decide, h.1, h.2.1, h.2.2.1⟩

/-- C5: on a pending (not yet materialized) window record, setting a URL
clears any previously-set inline HTML and setting HTML clears any
previously-set URL; for either ordering of the two setter calls the last
call wins and the other field reads back absent. -/
theorem load_url_load_html_last_wins (w : WryWindowRec) (url html : String)
    (hpending : w.webview_live = false) :
    (wry_window_load_html (wry_window_load_url w url) html).pending_url = none ∧
    (wry_window_load_html (wry_window_load_url w url) html).pending_html = some html ∧
    (wry_window_load_url (wry_window_load_html w html) url).pending_html = none ∧
    (wry_window_load_url (wry_window_load_html w html) url).pending_url = some url := by
  simp [wry_window_load_url, wry_window_load_html, hpending]

/-- Witness for `load_url_load_html_last_wins` on a fresh record. -/
theorem load_url_load_html_last_wins_witness :
    (WryWindowRec.new 1).webview_live = false ∧
    (wry_window_load_html (wry_window_load_url (WryWindowRec.new 1) "https://a") "<p>b</p>").pending_url
      = none := by
  exact ⟨rfl, (load_url_load_html_last_wins (WryWindowRec.new 1) "https://a" "<p>b</p>" rfl).1⟩

/-- C6: the owner and parent fields of a pending window record are mutually
exclusive: starting from any record where at most one of them is set (in
particular a fresh record), after any sequence of owner/parent setter calls
the two fields are never both set. -/
theorem owner_parent_mutually_exclusive (ops : List OwnerParentOp) (w : WryWindowRec)
    (hw : ownerParentExclusive w) :
    ownerParentExclusive (applyOwnerParentOps w ops) := by
  induction ops generalizing w with
  | nil => exact hw
  | cons op rest ih =>
    refine ih (applyOwnerParentOp w op) ?_
    rcases op with n | n <;>
      simp only [applyOwnerParentOp, wry_window_set_owner_window,
        wry_window_set_parent_window] <;>
      rcases Nat.eq_zero_or_pos n with hn | hn
    · simp only [if_pos hn, if_neg (by omega : ¬ n ≠ 0)]
      rcases hw with h | h
      · exact Or.inl (by simp)
      · exact Or.inr (by simpa using h)
    · simp only [if_neg (by omega : ¬ n = 0), if_pos (by omega : n ≠ 0)]
      exact Or.inr rfl
    · simp only [if_pos hn, if_neg (by omega : ¬ n ≠ 0)]
      rcases hw with h | h
      · exact Or.inl (by simpa using h)
      · exact Or.inr (by simp)
    · simp only [if_neg (by omega : ¬ n = 0), if_pos (by omega : n ≠ 0)]
      exact Or.inl rfl

/-- Witness for `owner_parent_mutually_exclusive`: a fresh record taken
through an owner call followed by a parent call. -/
theorem owner_parent_mutually_exclusive_witness :
    ownerParentExclusive
      (applyOwnerParentOps (WryWindowRec.new 3) [.setOwner 1, .setParent 2]) :=
  owner_parent_mutually_exclusive [.setOwner 1, .setParent 2] (WryWindowRec.new 3)
    (Or.inl rfl)

theorem new_with_owner_snd (app : WryApp) (o : Nat) :
    (wry_window_new_with_owner app o).2 = app.next_window_id := by
  simp only [wry_window_new_with_owner]
  split <;> rfl

theorem new_with_owner_next (app : WryApp) (o : Nat) :
    (wry_window_new_with_owner app o).1.next_window_id = app.next_window_id + 1 := by
  simp only [wry_window_new_with_owner]
  split <;> rfl

theorem window_creates_ge (owners : List Nat) (app : WryApp) :
    ∀ h ∈ (window_creates app owners).2, app.next_window_id ≤ h := by
  induction owners generalizing app with
  | nil => intro h hm; simp [window_creates] at hm
  | cons o rest ih =>
    intro h hm
    simp only [window_creates, List.mem_cons] at hm
    rcases hm with hm | hm
    · rw [hm, new_with_owner_snd]
    · have := ih (wry_window_new_with_owner app o).1 h hm
      rw [new_with_owner_next] at this
      omega

theorem window_creates_pairwise (owners : List Nat) (app : WryApp) :
    (window_creates app owners).2.Pairwise (· < ·) := by
  induction owners generalizing app with
  | nil => simp [window_creates]
  | cons o rest ih =>
    simp only [window_creates, List.pairwise_cons]
    refine ⟨fun h hm => ?_, ih _⟩
    have := window_creates_ge rest (wry_window_new_with_owner app o).1 h hm
    rw [new_with_owner_next] at this
    rw [new_with_owner_snd]
    omega

theorem tray_creates_ge (n : Nat) (app : WryApp) :
    ∀ h ∈ (tray_creates app n).2, app.next_tray_id ≤ h := by
  induction n generalizing app with
  | zero => intro h hm; simp [tray_creates] at hm
  | succ m ih =>
    intro h hm
    simp only [tray_creates, wry_tray_new, List.mem_cons] at hm
    rcases hm with hm | hm
    · omega
    · have := ih _ h hm
      simp only at this
      omega

theorem tray_creates_pairwise (n : Nat) (app : WryApp) :
    (tray_creates app n).2.Pairwise (· < ·) := by
  induction n generalizing app with
  | zero => simp [tray_creates]
  | succ m ih =>
    simp only [tray_creates, List.pairwise_cons]
    refine ⟨fun h hm => ?_, ih _⟩
    have := tray_creates_ge m (wry_tray_new app).1 h hm
    simp only [wry_tray_new] at this ⊢
    omega

/-- C7: every sequence of window-create calls on a non-null application
returns handles that are strictly increasing (hence pairwise distinct) and
never the sentinel `0`; the same holds separately for tray-create calls in
their own handle namespace.  The counters start at `1` in `wry_app_new`
and only ever grow. -/
theorem create_handles_distinct_nonzero (app : WryApp) (owners : List Nat) (n : Nat)
    (hw : 1 ≤ app.next_window_id) (ht : 1 ≤ app.next_tray_id) :
    (window_creates app owners).2.Pairwise (· < ·) ∧
    (∀ h ∈ (window_creates app owners).2, h ≠ 0) ∧
    (tray_creates app n).2.Pairwise (· < ·) ∧
    (∀ h ∈ (tray_creates app n).2, h ≠ 0) := by
  refine ⟨window_creates_pairwise owners app, fun h hm => ?_,
    tray_creates_pairwise n app, fun h hm => ?_⟩
  · have := window_creates_ge owners app h hm
    omega
  · have := tray_creates_ge n app h hm
    omega

/-- Witness for `create_handles_distinct_nonzero`: three window creates and
two tray creates on a fresh application. -/
theorem create_handles_distinct_nonzero_witness :
    1 ≤ wry_app_new.next_window_id ∧ 1 ≤ wry_app_new.next_tray_id ∧
    ((window_creates wry_app_new [0, 1, 0]).2.Pairwise (· < ·) ∧
     (∀ h ∈ (window_creates wry_app_new [0, 1, 0]).2, h ≠ 0) ∧
     (tray_creates wry_app_new 2).2.Pairwise (· < ·) ∧
     (∀ h ∈ (tray_creates wry_app_new 2).2, h ≠ 0)) :=
  ⟨Nat.le_refl 1, Nat.le_refl 1,
    create_handles_distinct_nonzero wry_app_new [0, 1, 0] 2 (Nat.le_refl 1) (Nat.le_refl 1)⟩

/-- C8: `wry_app_run` consumes the event-loop driver exactly once: after a
first call has taken the driver, a second call on the same application
returns immediately, does not run the loop, and leaves the whole
application state (windows, trays, counters, queue) unchanged. -/
theorem run_consumes_driver_once (app : WryApp) :
    wry_app_run (wry_app_run app).1 = ((wry_app_run app).1, false) := by
  by_cases h : app.has_event_loop = false <;> simp [wry_app_run, h]

/-- C9 counterexample: centering a not-yet-live window is not a no-op; it
overwrites a previously-set pending position with `none`. -/
theorem center_pending_modifies_position :
    (wry_window_center centeredCexRec).pending_position ≠
      centeredCexRec.pending_position := by
  decide

/-- C9 amended: on a window that is not yet live, `wry_window_center` does
not compute a centered position; its only effect is to reset the pending
position to `none` (so the platform default placement is used); every other
field is unchanged. -/
theorem center_pending_resets_position (w : WryWindowRec)
    (hpending : w.window_live = false) :
    wry_window_center w = { w with pending_position := none } := by
  simp [wry_window_center, hpending]

/-- Witness for `center_pending_resets_position` at a concrete record. -/
theorem center_pending_resets_position_witness :
    centeredCexRec.window_live = false ∧
    wry_window_center centeredCexRec = { centeredCexRec with pending_position := none } :=
  ⟨rfl, center_pending_resets_position centeredCexRec rfl⟩

theorem materialize_window_frame (env : Nat → CreateOutcome) (st : LoopState)
    (w : WryWindowRec) :
    (materialize_window env st w).control_flow = st.control_flow ∧
    (materialize_window env st w).live_trays = st.live_trays ∧
    (materialize_window env st w).pending_trays = st.pending_trays ∧
    (materialize_window env st w).dynamic_window_queue = st.dynamic_window_queue := by
  unfold materialize_window
  rcases env w.id with wid | m
  · exact ⟨rfl, rfl, rfl, rfl⟩
  · dsimp only
    split <;> exact ⟨rfl, rfl, rfl, rfl⟩

theorem foldl_materialize_frame (env : Nat → CreateOutcome) :
    ∀ (ws : List WryWindowRec) (st : LoopState),
      ((ws.foldl (materialize_window env) st).control_flow = st.control_flow ∧
       (ws.foldl (materialize_window env) st).live_trays = st.live_trays ∧
       (ws.foldl (materialize_window env) st).pending_trays = st.pending_trays)
  | [], st => ⟨rfl, rfl, rfl⟩
  | w :: ws, st => by
    have h1 := materialize_window_frame env st w
    have h2 := foldl_materialize_frame env ws (materialize_window env st w)
    simp only [List.foldl_cons]
    exact ⟨h2.1.trans h1.1, h2.2.1.trans h1.2.1, h2.2.2.trans h1.2.2.1⟩

theorem check_exit_windows_empty_spec (st : LoopState)
    (hempty : st.live_windows.isEmpty = true)
    (hallow : wry_exit_allows st false 0 = true) :
    check_exit_windows_empty st
      = { st with live_trays := [], control_flow := ControlFlow.Exit } := by
  simp [check_exit_windows_empty, hempty, hallow]

theorem check_exit_windows_empty_trays (st : LoopState)
    (hcf : st.control_flow = ControlFlow.Wait) :
    (check_exit_windows_empty st).control_flow = ControlFlow.Exit →
    (check_exit_windows_empty st).live_trays = [] := by
  unfold check_exit_windows_empty
  split_ifs <;> simp_all

theorem vec_pop_append (q : List α) (r : α) : vec_pop (q ++ [r]) = some (r, q) := by
  induction q with
  | nil => rfl
  | cons x xs ih => simp [vec_pop, ih]

theorem materialize_window_attempts (env : Nat → CreateOutcome) (st : LoopState)
    (w : WryWindowRec) :
    (materialize_window env st w).create_attempts
      = st.create_attempts
        ++ [(w.id, resolve_window_rel st w.pending_owner_window_id,
             resolve_window_rel st w.pending_parent_window_id)] := by
  unfold materialize_window
  rcases env w.id with wid | m
  · rfl
  · dsimp only
    split <;> rfl

/-- Every reachable one-step result of the loop keeps the shape required
by the exit discipline: whenever the step ends with the control flow set
to `Exit`, the live-tray map has been cleared first. -/
theorem loopStep_exit_no_live_trays (st : LoopState) (ev : LoopEvent) :
    (loopStep st ev).control_flow = ControlFlow.Exit →
    (loopStep st ev).live_trays = [] := by
  cases ev with
  | init env =>
    intro h
    exfalso
    have hcf := (foldl_materialize_frame env
      (sortPendingById st.pending_windows)
      { st with control_flow := ControlFlow.Wait, pending_windows := [] }).1
    simp only [loopStep] at h
    rw [hcf] at h
    simp at h
  | closeRequested wid ans =>
    simp only [loopStep]
    rcases hl : alist_lookup wid st.live_windows with _ | our_id
    · simp [hl]
    · simp only [hl]
      split_ifs with hallow
      · exact check_exit_windows_empty_trays _ rfl
      · simp
  | destroyed wid =>
    simp only [loopStep]
    rcases hl : alist_lookup wid st.live_windows with _ | our_id
    · simp [hl]
    · simp only [hl]
      exact check_exit_windows_empty_trays _ rfl
  | dispatch our_id destroys =>
    simp only [loopStep]
    rcases hl : alist_lookup our_id st.id_to_window_id with _ | wid
    · simp [hl]
    · simp only [hl]
      rcases hl2 : alist_lookup wid st.live_windows with _ | x
      · simp [hl2]
      · simp only [hl2]
        split_ifs with hdes
        · exact check_exit_windows_empty_trays _ rfl
        · simp
  | trayRemove tid =>
    simp only [loopStep]
    split_ifs with hempty
    · intro _
      simpa using (List.isEmpty_iff.mp (Bool.and_elim_right hempty))
    · simp
  | requestExit code =>
    simp only [loopStep]
    split_ifs with hallow
    · intro _; rfl
    · simp
  | createWindow env =>
    simp only [loopStep]
    rcases hp : vec_pop st.dynamic_window_queue with _ | ⟨w, rest⟩
    · simp [hp]
    · simp only [hp]
      intro h
      exfalso
      have := (materialize_window_frame env
        { st with control_flow := ControlFlow.Wait, dynamic_window_queue := rest } w).1
      rw [this] at h
      simp at h

theorem new_window_rec_id (id o : Nat) : (new_window_rec id o).id = id := by
  unfold new_window_rec
  split <;> rfl

/-- C3: when removal of a window (an allowed close request, an OS destroy
event, or a dispatch whose callback destroyed the window) leaves zero
live windows, the exit-requested handler is consulted (allowing exit when
unregistered) and, if it allows, all live trays are cleared and the
control flow is set to `Exit`; moreover no step of the loop ever ends
with the control flow at `Exit` while a tray is still live. -/
theorem removal_exit_clears_trays (st : LoopState) :
    (∀ wid our_id ans,
      alist_lookup wid st.live_windows = some our_id →
      ans.getD true = true →
      alist_erase wid st.live_windows = [] →
      wry_exit_allows st false 0 = true →
      (loopStep st (.closeRequested wid ans)).live_trays = [] ∧
      (loopStep st (.closeRequested wid ans)).control_flow = ControlFlow.Exit) ∧
    (∀ wid our_id,
      alist_lookup wid st.live_windows = some our_id →
      alist_erase wid st.live_windows = [] →
      wry_exit_allows st false 0 = true →
      (loopStep st (.destroyed wid)).live_trays = [] ∧
      (loopStep st (.destroyed wid)).control_flow = ControlFlow.Exit) ∧
    (∀ our_id wid x,
      alist_lookup our_id st.id_to_window_id = some wid →
      alist_lookup wid st.live_windows = some x →
      alist_erase wid st.live_windows = [] →
      wry_exit_allows st false 0 = true →
      (loopStep st (.dispatch our_id true)).live_trays = [] ∧
      (loopStep st (.dispatch our_id true)).control_flow = ControlFlow.Exit) ∧
    (∀ ev, (loopStep st ev).control_flow = ControlFlow.Exit →
      (loopStep st ev).live_trays = []) := by
  refine ⟨?_, ?_, ?_, fun ev => loopStep_exit_no_live_trays st ev⟩
  · intro wid our_id ans hl hans herase hallow
    have hstep : loopStep st (.closeRequested wid ans)
        = check_exit_windows_empty
            { st with
                control_flow := ControlFlow.Wait
                id_to_window_id := alist_erase our_id st.id_to_window_id
                live_windows := alist_erase wid st.live_windows } := by
      simp [loopStep, hl, hans]
    rw [hstep, check_exit_windows_empty_spec]
    · exact ⟨rfl, rfl⟩
    · simp [herase]
    · exact hallow
  · intro wid our_id hl herase hallow
    have hstep : loopStep st (.destroyed wid)
        = check_exit_windows_empty
            { st with
                control_flow := ControlFlow.Wait
                id_to_window_id := alist_erase our_id st.id_to_window_id
                live_windows := alist_erase wid st.live_windows } := by
      simp [loopStep, hl]
    rw [hstep, check_exit_windows_empty_spec]
    · exact ⟨rfl, rfl⟩
    · simp [herase]
    · exact hallow
  · intro our_id wid x hl hl2 herase hallow
    have hstep : loopStep st (.dispatch our_id true)
        = check_exit_windows_empty
            { st with
                control_flow := ControlFlow.Wait
                live_windows := alist_erase wid st.live_windows } := by
      simp [loopStep, hl, hl2]
    rw [hstep, check_exit_windows_empty_spec]
    · exact ⟨rfl, rfl⟩
    · simp [herase]
    · exact hallow

/-- Witness for `removal_exit_clears_trays`: one live window closed with
no close handler and no exit handler, one live tray. -/
theorem removal_exit_clears_trays_witness :
    alist_lookup 7 oneWindowOneTraySt.live_windows = some 1 ∧
    alist_erase 7 oneWindowOneTraySt.live_windows = [] ∧
    wry_exit_allows oneWindowOneTraySt false 0 = true ∧
    (loopStep oneWindowOneTraySt (.closeRequested 7 none)).live_trays = [] ∧
    (loopStep oneWindowOneTraySt (.closeRequested 7 none)).control_flow
      = ControlFlow.Exit := by
  have h := (removal_exit_clears_trays oneWindowOneTraySt).1 7 1 none rfl rfl rfl rfl
  exact ⟨rfl, rfl, rfl, h.1, h.2⟩

/-- C10: the dynamic window queue is drained last-in-first-out: a
post-start create call appends its record to the queue, and each
materialize-next-queued-window message takes the MOST RECENTLY queued
record, so several windows created after the loop started can
materialize in reverse order of their creation calls. -/
theorem dynamic_queue_lifo (app : WryApp) (o : Nat) (st : LoopState)
    (q : List WryWindowRec) (r : WryWindowRec) (env : Nat → CreateOutcome)
    (happ : app.run_started = true) (hq : st.dynamic_window_queue = q ++ [r]) :
    (wry_window_new_with_owner app o).1.dynamic_window_queue
      = app.dynamic_window_queue ++ [new_window_rec app.next_window_id o] ∧
    (loopStep st (.createWindow env)).dynamic_window_queue = q ∧
    (∃ ores pres, (loopStep st (.createWindow env)).create_attempts
      = st.create_attempts ++ [(r.id, ores, pres)]) := by
  have hpop : vec_pop st.dynamic_window_queue = some (r, q) := by
    rw [hq]; exact vec_pop_append q r
  have hstep : loopStep st (.createWindow env)
      = materialize_window env
          { st with
              control_flow := ControlFlow.Wait
              dynamic_window_queue := q } r := by
    simp [loopStep, hpop]
  refine ⟨by simp [wry_window_new_with_owner, happ], ?_, ?_⟩
  · rw [hstep]
    exact (materialize_window_frame env _ r).2.2.2
  · rw [hstep, materialize_window_attempts]
    exact ⟨_, _, rfl⟩

/-- Witness for `dynamic_queue_lifo`: two queued windows; the step takes
the one queued second. -/
theorem dynamic_queue_lifo_witness :
    startedApp.run_started = true ∧
    lifoSt.dynamic_window_queue = [WryWindowRec.new 2] ++ [WryWindowRec.new 3] ∧
    (loopStep lifoSt (.createWindow fun i => .ok (10 + i))).dynamic_window_queue
      = [WryWindowRec.new 2] := by
  have h := dynamic_queue_lifo startedApp 0 lifoSt [WryWindowRec.new 2]
    (WryWindowRec.new 3) (fun i => .ok (10 + i)) rfl rfl
  exact ⟨rfl, rfl, h.2.1⟩

/-- C2: the code diverges from the claim.  With one pending window whose
creation fails at loop start and a registered window-creation-error
handler, the `StartCause::Init` step DOES invoke the handler with the
window's handle and the error message, although the claim (and the code's
own doc comments, "async path only") say the handler fires only on the
dynamic post-start path. -/
theorem init_failure_fires_error_callback :
    (loopStep initErrSt (.init fun _ => .err "window creation failed")).error_calls
      = [(1, "window creation failed")] := by
  rfl

theorem alist_lookup_erase_ne (k a : Nat) (l : List (Nat × β)) (h : k ≠ a) :
    alist_lookup a (alist_erase k l) = alist_lookup a l := by
  induction l with
  | nil => rfl
  | cons p rest ih =>
    obtain ⟨k2, v⟩ := p
    simp only [alist_erase, List.filter_cons] at ih ⊢
    by_cases hk : k2 = k
    · subst hk
      have hka : k2 ≠ a := h
      simp [alist_lookup, hka, ih]
    · simp only [bne_iff_ne, ne_eq, hk, not_false_eq_true, if_pos, ite_true]
      simp only [alist_lookup]
      split <;> simp_all

theorem alist_lookup_insert_self (k : Nat) (v : β) (l : List (Nat × β)) :
    alist_lookup k (alist_insert k v l) = some v := by
  simp [alist_insert, alist_lookup]

theorem alist_lookup_insert_ne (k a : Nat) (v : β) (l : List (Nat × β)) (h : k ≠ a) :
    alist_lookup a (alist_insert k v l) = alist_lookup a l := by
  simp only [alist_insert, alist_lookup, if_neg h]
  exact alist_lookup_erase_ne k a l h

theorem alist_lookup_insert_isSome (k a : Nat) (v : β) (l : List (Nat × β))
    (h : (alist_lookup a l).isSome = true) :
    (alist_lookup a (alist_insert k v l)).isSome = true := by
  by_cases hk : k = a
  · subst hk
    rw [alist_lookup_insert_self]
    rfl
  · rw [alist_lookup_insert_ne k a v l hk]
    exact h

theorem chain_live_materialize (env : Nat → CreateOutcome) (st : LoopState)
    (w : WryWindowRec) (i wid : Nat) (hch : chain_live st i wid) (hne : w.id ≠ i) :
    chain_live (materialize_window env st w) i wid := by
  obtain ⟨h1, h2⟩ := hch
  unfold materialize_window
  rcases env w.id with wid2 | m
  · dsimp only
    refine ⟨?_, ?_⟩
    · rw [alist_lookup_insert_ne w.id i wid2 _ hne]
      exact h1
    · exact alist_lookup_insert_isSome wid2 wid w.id _ h2
  · dsimp only
    split <;> exact ⟨h1, h2⟩

theorem chain_live_materialize_self (env : Nat → CreateOutcome) (st : LoopState)
    (w : WryWindowRec) (wid : Nat) (henv : env w.id = CreateOutcome.ok wid) :
    chain_live (materialize_window env st w) w.id wid := by
  unfold materialize_window
  rw [henv]
  dsimp only
  refine ⟨alist_lookup_insert_self .., ?_⟩
  rw [alist_lookup_insert_self]
  rfl

theorem chain_live_foldl (env : Nat → CreateOutcome) :
    ∀ (ws : List WryWindowRec) (st : LoopState) (i wid : Nat),
      chain_live st i wid → (∀ w ∈ ws, w.id ≠ i) →
      chain_live (ws.foldl (materialize_window env) st) i wid
  | [], _, _, _, h, _ => h
  | w :: ws, st, i, wid, h, hne => by
    simp only [List.foldl_cons]
    exact chain_live_foldl env ws _ i wid
      (chain_live_materialize env st w i wid h (hne w (List.mem_cons_self w ws)))
      (fun x hx => hne x (List.mem_cons_of_mem w hx))

theorem chain_live_foldl_mem (env : Nat → CreateOutcome) (w1 : WryWindowRec)
    (wid1 : Nat) (henv : env w1.id = CreateOutcome.ok wid1) :
    ∀ (ws : List WryWindowRec) (st : LoopState),
      w1 ∈ ws → (ws.map WryWindowRec.id).Nodup →
      chain_live (ws.foldl (materialize_window env) st) w1.id wid1
  | [], _, hmem, _ => absurd hmem (List.not_mem_nil w1)
  | w :: ws, st, hmem, hnodup => by
    simp only [List.map_cons, List.nodup_cons] at hnodup
    simp only [List.foldl_cons]
    rcases List.mem_cons.mp hmem with heq | hmem2
    · subst heq
      refine chain_live_foldl env ws _ w1.id wid1
        (chain_live_materialize_self env st w1 wid1 henv) (fun x hx hxz => ?_)
      refine hnodup.1 ?_
      rw [← hxz]
      exact List.mem_map_of_mem WryWindowRec.id hx
    · exact chain_live_foldl_mem env w1 wid1 henv ws _ hmem2 hnodup.2

theorem mem_attempts_materialize (env : Nat → CreateOutcome) (st : LoopState)
    (w : WryWindowRec) (a : Nat × Option Nat × Option Nat)
    (h : a ∈ st.create_attempts) :
    a ∈ (materialize_window env st w).create_attempts := by
  rw [materialize_window_attempts]
  exact List.mem_append_left _ h

theorem mem_attempts_foldl (env : Nat → CreateOutcome) :
    ∀ (ws : List WryWindowRec) (st : LoopState) (a : Nat × Option Nat × Option Nat),
      a ∈ st.create_attempts →
      a ∈ (ws.foldl (materialize_window env) st).create_attempts
  | [], _, _, h => h
  | w :: ws, st, a, h => by
    simp only [List.foldl_cons]
    exact mem_attempts_foldl env ws _ a (mem_attempts_materialize env st w a h)

theorem resolve_window_rel_of_chain (st : LoopState) (i wid : Nat)
    (h : chain_live st i wid) :
    resolve_window_rel st (some i) = some wid := by
  obtain ⟨h1, h2⟩ := h
  obtain ⟨x, hx⟩ := Option.isSome_iff_exists.mp h2
  simp [resolve_window_rel, h1, hx]

/-- C4: at loop start the pending windows are materialized in ascending
handle order, so for handles `w1.id < w2.id` where `w2` names `w1` as
owner (resp. parent) and `w1`'s creation succeeds with tao id `wid1`,
`w1` is already live when `w2`'s owner/parent resolution runs: the
`create` attempt for `w2` receives `some wid1` as its owner (resp.
parent) rather than silently dropping the relationship. -/
theorem init_owner_materialized_first
    (st : LoopState) (env : Nat → CreateOutcome) (w1 w2 : WryWindowRec) (wid1 : Nat)
    (hnodup : (st.pending_windows.map WryWindowRec.id).Nodup)
    (h1 : w1 ∈ st.pending_windows) (h2 : w2 ∈ st.pending_windows)
    (hlt : w1.id < w2.id)
    (henv : env w1.id = CreateOutcome.ok wid1) :
    (w2.pending_owner_window_id = some w1.id →
      ∃ pres, (w2.id, some wid1, pres) ∈ (loopStep st (.init env)).create_attempts) ∧
    (w2.pending_parent_window_id = some w1.id →
      ∃ ores, (w2.id, ores, some wid1) ∈ (loopStep st (.init env)).create_attempts) := by
  have hperm : (sortPendingById st.pending_windows).Perm st.pending_windows :=
    List.perm_insertionSort windowIdLe _
  have hsorted : List.Sorted windowIdLe (sortPendingById st.pending_windows) :=
    List.sorted_insertionSort windowIdLe _
  have hnodupL : ((sortPendingById st.pending_windows).map WryWindowRec.id).Nodup :=
    ((hperm.map _).nodup_iff).mpr hnodup
  have h1L : w1 ∈ sortPendingById st.pending_windows := hperm.mem_iff.mpr h1
  have h2L : w2 ∈ sortPendingById st.pending_windows := hperm.mem_iff.mpr h2
  obtain ⟨xs, ys, hsplit⟩ := List.append_of_mem h2L
  have hw1xs : w1 ∈ xs := by
    rw [hsplit] at h1L hsorted
    rcases List.mem_append.mp h1L with hx | hy
    · exact hx
    · exfalso
      rcases List.mem_cons.mp hy with he | hys
      · rw [he] at hlt
        exact Nat.lt_irrefl _ hlt
      · have hp : List.Pairwise windowIdLe (xs ++ w2 :: ys) := hsorted
        have hsr := (List.pairwise_cons.mp (List.pairwise_append.mp hp).2.1).1 w1 hys
        unfold windowIdLe at hsr
        omega
  have hstep : (loopStep st (.init env)).create_attempts
      = ((sortPendingById st.pending_windows).foldl (materialize_window env)
          { st with control_flow := ControlFlow.Wait,
                    pending_windows := [] }).create_attempts := rfl
  rw [hstep, hsplit, List.foldl_append, List.foldl_cons]
  have hxsnodup : (xs.map WryWindowRec.id).Nodup := by
    rw [hsplit, List.map_append] at hnodupL
    exact hnodupL.sublist (List.sublist_append_left _ _)
  set st1 := xs.foldl (materialize_window env)
      { st with control_flow := ControlFlow.Wait, pending_windows := [] } with hst1
  have hchain : chain_live st1 w1.id wid1 :=
    chain_live_foldl_mem env w1 wid1 henv xs _ hw1xs hxsnodup
  constructor
  · intro howner
    have hmem : (w2.id, some wid1, resolve_window_rel st1 w2.pending_parent_window_id)
        ∈ (materialize_window env st1 w2).create_attempts := by
      rw [materialize_window_attempts, howner,
        resolve_window_rel_of_chain st1 w1.id wid1 hchain]
      exact List.mem_append_right _ (List.mem_singleton_self _)
    exact ⟨_, mem_attempts_foldl env ys _ _ hmem⟩
  · intro hparent
    have hmem : (w2.id, resolve_window_rel st1 w2.pending_owner_window_id, some wid1)
        ∈ (materialize_window env st1 w2).create_attempts := by
      rw [materialize_window_attempts, hparent,
        resolve_window_rel_of_chain st1 w1.id wid1 hchain]
      exact List.mem_append_right _ (List.mem_singleton_self _)
    exact ⟨_, mem_attempts_foldl env ys _ _ hmem⟩

/-- Witness for `init_owner_materialized_first`: two pending windows,
handle 2 owned by handle 1; creation of handle `i` yields tao id `10+i`. -/
theorem init_owner_materialized_first_witness :
    (ownerOrderSt.pending_windows.map WryWindowRec.id).Nodup ∧
    ∃ pres, ((2 : Nat), some (11 : Nat), pres)
      ∈ (loopStep ownerOrderSt (.init fun i => CreateOutcome.ok (10 + i))).create_attempts := by
  refine ⟨by decide, ?_⟩
  exact (init_owner_materialized_first ownerOrderSt (fun i => CreateOutcome.ok (10 + i))
    (WryWindowRec.new 1) { WryWindowRec.new 2 with pending_owner_window_id := some 1 } 11
    (by decide) (by decide) (by decide) (by decide) rfl).1 rfl

end WryNative
